import Mathlib

/-!
Verification development for the flowstate temporal pose-refinement and
scoring pipeline (`src/core/analyzer.py`).

The Python code is shallowly embedded: floats become rationals (`ℚ`),
Python `int` becomes `ℤ`, Python lists become `List`, and the Python
dictionary of scores becomes an association list `List (String × ℚ)` so
that presence or absence of a key is faithfully represented.  `np.sqrt`
(and through it `np.std`) is modelled by an explicit square-root
parameter `sqrt : ℚ → ℚ`; the theorems that depend on it assume only
that it sends nonnegative numbers to nonnegative numbers, which is the
sole property of `np.sqrt` the claims rely on.  Python `int(x)`
truncates toward zero; it is modelled by `pyInt`.
-/

namespace FlowState

/-- A single pose keypoint (`PoseKeypoint` in `analyzer.py`): x, y,
confidence, and a depth value `z` that defaults to 0. -/
structure PoseKeypoint where
  x : ℚ
  y : ℚ
  confidence : ℚ
  z : ℚ := 0
deriving DecidableEq, Repr, Inhabited

/-- Pose data for a single frame (`PoseFrame` in `analyzer.py`). -/
structure PoseFrame where
  body_keypoints : List PoseKeypoint
  hand_keypoints_left : List PoseKeypoint
  hand_keypoints_right : List PoseKeypoint
  face_keypoints : List PoseKeypoint
  timestamp : ℚ
  frame_idx : ℤ
deriving DecidableEq, Repr, Inhabited

/-- Python `int(q)`: truncation toward zero. -/
def pyInt (q : ℚ) : ℤ := if 0 ≤ q then ⌊q⌋ else ⌈q⌉

/-- Linear interpolation of one keypoint pair, as built inline in
`_interpolate_single_pose`: coordinates `p1 + α*(p2-p1)`, confidence
`min(conf1, conf2)`, `z` left at its default 0. -/
def interp_keypoint (α : ℚ) (kp1 kp2 : PoseKeypoint) : PoseKeypoint :=
  { x := kp1.x + α * (kp2.x - kp1.x)
    y := kp1.y + α * (kp2.y - kp1.y)
    confidence := min kp1.confidence kp2.confidence }

/-- `_interpolate_single_pose`: each keypoint list is interpolated over
`range(min(len1, len2))`, i.e. `zipWith`; the timestamp is linearly
interpolated and the frame index is the truncated linear interpolation
(`int(...)` in Python). -/
def interpolate_single_pose (pose1 pose2 : PoseFrame) (α : ℚ) : PoseFrame :=
  { body_keypoints :=
      List.zipWith (interp_keypoint α) pose1.body_keypoints pose2.body_keypoints
    hand_keypoints_left :=
      List.zipWith (interp_keypoint α) pose1.hand_keypoints_left pose2.hand_keypoints_left
    hand_keypoints_right :=
      List.zipWith (interp_keypoint α) pose1.hand_keypoints_right pose2.hand_keypoints_right
    face_keypoints :=
      List.zipWith (interp_keypoint α) pose1.face_keypoints pose2.face_keypoints
    timestamp := pose1.timestamp + α * (pose2.timestamp - pose1.timestamp)
    frame_idx :=
      pyInt ((pose1.frame_idx : ℚ) + α * ((pose2.frame_idx : ℚ) - (pose1.frame_idx : ℚ))) }

/-- The loop body of `interpolate_poses`: for every adjacent pair emit the
first original frame followed by the `F-1` interpolants at
`α = j/F, j = 1..F-1`, and finally append the last original frame. -/
def interpolate_go (F : ℕ) : List PoseFrame → List PoseFrame
  | [] => []
  | [p] => [p]
  | p :: q :: rest =>
      (p :: (List.range (F - 1)).map
          (fun j : ℕ => interpolate_single_pose p q (((j : ℚ) + 1) / (F : ℚ))))
        ++ interpolate_go F (q :: rest)

/-- `interpolate_poses` with the interpolation factor `F` made an explicit
argument (the Python object reads it from `self.interpolation_factor`):
sequences of length `< 2` are returned unchanged. -/
def interpolate_poses (F : ℕ) (poses : List PoseFrame) : List PoseFrame :=
  if poses.length < 2 then poses else interpolate_go F poses

/-- `_gaussian_smooth_pose`: returns the window frame at `center_idx`,
falling back to the last window frame if the index is out of range. -/
def gaussian_smooth_pose (window_poses : List PoseFrame) (center_idx : ℕ) : PoseFrame :=
  if window_poses.length ≤ center_idx then window_poses.getLastD default
  else window_poses.getD center_idx default

/-- `smooth_poses` with the window `W` made an explicit argument (the
Python object reads it from `self.smoothing_window`): sequences shorter
than the window are returned unchanged, otherwise each output frame is
`_gaussian_smooth_pose` of the window `[max(0, i - W/2), min(n, i + W/2 + 1))`
centred at `i`. -/
def smooth_poses (W : ℕ) (poses : List PoseFrame) : List PoseFrame :=
  if poses.length < W then poses
  else (List.range poses.length).map fun i =>
    let s := i - W / 2
    let e := min poses.length (i + W / 2 + 1)
    gaussian_smooth_pose ((poses.drop s).take (e - s)) (i - s)

/-- One drawable stick-figure segment, `{from: {x,y}, to: {x,y}, confidence}`. -/
structure Segment where
  fromX : ℚ
  fromY : ℚ
  toX : ℚ
  toY : ℚ
  confidence : ℚ
deriving DecidableEq, Repr, Inhabited

/-- `BODY_CONNECTIONS` from `OpenPoseDetector`. -/
def BODY_CONNECTIONS : List (ℕ × ℕ) :=
  [(0, 1), (0, 2), (1, 3), (2, 4),
   (5, 6), (5, 7), (6, 8), (7, 9), (8, 10),
   (5, 11), (6, 12), (11, 12),
   (11, 13), (12, 14), (13, 15), (14, 16)]

/-- `HAND_CONNECTIONS` from `OpenPoseDetector`. -/
def HAND_CONNECTIONS : List (ℕ × ℕ) :=
  [(0, 1), (1, 2), (2, 3), (3, 4),
   (0, 5), (5, 6), (6, 7), (7, 8),
   (0, 9), (9, 10), (10, 11), (11, 12),
   (0, 13), (13, 14), (14, 15), (15, 16),
   (0, 17), (17, 18), (18, 19), (19, 20)]

/-- The per-edge emission step of `_generate_stick_figure_data`: a segment
is produced only when both endpoint indices are in bounds and both
keypoints have confidence above 0.3; its confidence is the minimum of
the endpoint confidences. -/
def emit_edge (kps : List PoseKeypoint) (e : ℕ × ℕ) : Option Segment :=
  if e.1 < kps.length ∧ e.2 < kps.length then
    let kp1 := kps.getD e.1 default
    let kp2 := kps.getD e.2 default
    if 3 / 10 < kp1.confidence ∧ 3 / 10 < kp2.confidence then
      some { fromX := kp1.x, fromY := kp1.y, toX := kp2.x, toY := kp2.y,
             confidence := min kp1.confidence kp2.confidence }
    else none
  else none

/-- The per-frame part of the stick-figure payload produced by
`_generate_stick_figure_data` (face connections are always empty: the
code defines no face topology). -/
structure StickFigureFrame where
  timestamp : ℚ
  frame_idx : ℤ
  body_connections : List Segment
  hand_connections_left : List Segment
  hand_connections_right : List Segment
  face_connections : List Segment
deriving DecidableEq, Repr

/-- The per-frame loop of `_generate_stick_figure_data`. -/
def generate_stick_figure_frame (pose : PoseFrame) : StickFigureFrame :=
  { timestamp := pose.timestamp
    frame_idx := pose.frame_idx
    body_connections := BODY_CONNECTIONS.filterMap (emit_edge pose.body_keypoints)
    hand_connections_left := HAND_CONNECTIONS.filterMap (emit_edge pose.hand_keypoints_left)
    hand_connections_right := HAND_CONNECTIONS.filterMap (emit_edge pose.hand_keypoints_right)
    face_connections := [] }

/-- Arithmetic mean of a list of rationals (`np.mean`). -/
def mean (l : List ℚ) : ℚ := l.sum / (l.length : ℚ)

/-- Population standard deviation (`np.std`), with the square root kept
abstract as `sqrt`. -/
def np_std (sqrt : ℚ → ℚ) (l : List ℚ) : ℚ :=
  sqrt (mean (l.map fun x => (x - mean l) ^ 2))

/-- Consecutive triples `(poses[i-1], poses[i], poses[i+1])` for
`i = 1 .. len-2`, the index pattern of `_calculate_motion_smoothness`. -/
def triples {α : Type} : List α → List (α × α × α)
  | a :: b :: c :: rest => (a, b, c) :: triples (b :: c :: rest)
  | _ => []

/-- Consecutive pairs `(poses[i-1], poses[i])` for `i = 1 .. len-1`, the
index pattern of `_calculate_energy_score` and `_calculate_hand_activity`. -/
def pairs {α : Type} : List α → List (α × α)
  | a :: b :: rest => (a, b) :: pairs (b :: rest)
  | _ => []

/-- `concatMap`, used to collect per-pair lists into one list. -/
def concatMap {α β : Type} (f : α → List β) : List α → List β
  | [] => []
  | a :: as => f a ++ concatMap f as

/-- The inner keypoint loop of `_calculate_motion_smoothness`: for each
index below all three lengths whose three confidences exceed 0.3, the
acceleration magnitude `sqrt((v2x-v1x)^2 + (v2y-v1y)^2)`. -/
def accel_list (sqrt : ℚ → ℚ) : List PoseKeypoint → List PoseKeypoint → List PoseKeypoint → List ℚ
  | k1 :: ps, k2 :: cs, k3 :: ns =>
      (if 3 / 10 < k1.confidence ∧ 3 / 10 < k2.confidence ∧ 3 / 10 < k3.confidence then
        [sqrt (((k3.x - k2.x) - (k2.x - k1.x)) ^ 2 + ((k3.y - k2.y) - (k2.y - k1.y)) ^ 2)]
      else []) ++ accel_list sqrt ps cs ns
  | _, _, _ => []

/-- The inner keypoint loop of `_calculate_energy_score` and
`_calculate_hand_activity`: for each index below both lengths whose two
confidences exceed 0.3, the displacement magnitude `sqrt(dx^2 + dy^2)`. -/
def movement_list (sqrt : ℚ → ℚ) : List PoseKeypoint → List PoseKeypoint → List ℚ
  | k1 :: l1, k2 :: l2 =>
      (if 3 / 10 < k1.confidence ∧ 3 / 10 < k2.confidence then
        [sqrt ((k2.x - k1.x) ^ 2 + (k2.y - k1.y) ^ 2)]
      else []) ++ movement_list sqrt l1 l2
  | _, _ => []

/-- The body of the triple loop of `_calculate_motion_smoothness`. -/
def accel_triple (sqrt : ℚ → ℚ) (t : PoseFrame × PoseFrame × PoseFrame) : List ℚ :=
  accel_list sqrt t.1.body_keypoints t.2.1.body_keypoints t.2.2.body_keypoints

/-- `_calculate_motion_smoothness`. -/
def calculate_motion_smoothness (sqrt : ℚ → ℚ) (poses : List PoseFrame) : ℚ :=
  if poses.length < 2 then 0
  else
    let velocity_changes := concatMap (accel_triple sqrt) (triples poses)
    if velocity_changes = [] then 0
    else max 0 (100 - np_std sqrt velocity_changes * 10)

/-- The per-frame body of `_calculate_balance_score`: a frame qualifies
when it has at least 17 body keypoints and hips and ankles (indices 11,
12, 15, 16) all have confidence above 0.3; the frame score is
`max(0, 100 - distance * 0.5)` for the distance between hip midpoint and
ankle midpoint. -/
def balance_frame_score (sqrt : ℚ → ℚ) (pose : PoseFrame) : Option ℚ :=
  if 17 ≤ pose.body_keypoints.length then
    let left_hip := pose.body_keypoints.getD 11 default
    let right_hip := pose.body_keypoints.getD 12 default
    let left_ankle := pose.body_keypoints.getD 15 default
    let right_ankle := pose.body_keypoints.getD 16 default
    if 3 / 10 < left_hip.confidence ∧ 3 / 10 < right_hip.confidence ∧
        3 / 10 < left_ankle.confidence ∧ 3 / 10 < right_ankle.confidence then
      let com_x := (left_hip.x + right_hip.x) / 2
      let com_y := (left_hip.y + right_hip.y) / 2
      let base_x := (left_ankle.x + right_ankle.x) / 2
      let base_y := (left_ankle.y + right_ankle.y) / 2
      let distance := sqrt ((com_x - base_x) ^ 2 + (com_y - base_y) ^ 2)
      some (max 0 (100 - distance * (5 / 10)))
    else none
  else none

/-- `_calculate_balance_score`: mean of the qualifying per-frame scores. -/
def calculate_balance_score (sqrt : ℚ → ℚ) (poses : List PoseFrame) : ℚ :=
  if poses = [] then 0
  else
    let balance_scores := poses.filterMap (balance_frame_score sqrt)
    if balance_scores = [] then 0 else mean balance_scores

/-- The per-pair body of `_calculate_energy_score`: the average body
displacement over the qualifying keypoints of one consecutive frame
pair, or nothing when no keypoint qualifies. -/
def energy_pair_score (sqrt : ℚ → ℚ) (pq : PoseFrame × PoseFrame) : Option ℚ :=
  let ds := movement_list sqrt pq.1.body_keypoints pq.2.body_keypoints
  if ds = [] then none else some (ds.sum / (ds.length : ℚ))

/-- `_calculate_energy_score`. -/
def calculate_energy_score (sqrt : ℚ → ℚ) (poses : List PoseFrame) : ℚ :=
  if poses.length < 2 then 0
  else
    let per_frame := (pairs poses).filterMap (energy_pair_score sqrt)
    if per_frame = [] then 0 else min 100 (mean per_frame * 2)

/-- The per-pair body of `_calculate_hand_activity`: the displacement
magnitudes of both hand keypoint lists combined, each side guarded by
the Python truthiness test on the two lists. -/
def hand_pair_movements (sqrt : ℚ → ℚ) (pq : PoseFrame × PoseFrame) : List ℚ :=
  (if pq.1.hand_keypoints_left ≠ [] ∧ pq.2.hand_keypoints_left ≠ [] then
    movement_list sqrt pq.1.hand_keypoints_left pq.2.hand_keypoints_left
  else []) ++
  (if pq.1.hand_keypoints_right ≠ [] ∧ pq.2.hand_keypoints_right ≠ [] then
    movement_list sqrt pq.1.hand_keypoints_right pq.2.hand_keypoints_right
  else [])

/-- `_calculate_hand_activity`: `min(100, mean * 5)` over the combined
hand movements. -/
def calculate_hand_activity (sqrt : ℚ → ℚ) (poses : List PoseFrame) : ℚ :=
  if poses.length < 2 then 0
  else
    let hand_movements := concatMap (hand_pair_movements sqrt) (pairs poses)
    if hand_movements = [] then 0 else min 100 (mean hand_movements * 5)

/-- The per-frame body of `_calculate_posture_stability`: a frame
qualifies when it has at least 17 body keypoints and nose, shoulders and
hips (indices 0, 5, 6, 11, 12) all have confidence above 0.3; the frame
score is `max(0, 100 - |shoulderCenter.x - hipCenter.x| * 0.5)`. -/
def posture_frame_score (pose : PoseFrame) : Option ℚ :=
  if 17 ≤ pose.body_keypoints.length then
    let nose := pose.body_keypoints.getD 0 default
    let left_shoulder := pose.body_keypoints.getD 5 default
    let right_shoulder := pose.body_keypoints.getD 6 default
    let left_hip := pose.body_keypoints.getD 11 default
    let right_hip := pose.body_keypoints.getD 12 default
    if 3 / 10 < nose.confidence ∧ 3 / 10 < left_shoulder.confidence ∧
        3 / 10 < right_shoulder.confidence ∧ 3 / 10 < left_hip.confidence ∧
        3 / 10 < right_hip.confidence then
      let shoulder_center_x := (left_shoulder.x + right_shoulder.x) / 2
      let hip_center_x := (left_hip.x + right_hip.x) / 2
      let spine_deviation := |shoulder_center_x - hip_center_x|
      some (max 0 (100 - spine_deviation * (5 / 10)))
    else none
  else none

/-- `_calculate_posture_stability`: mean of the qualifying per-frame
scores. -/
def calculate_posture_stability (poses : List PoseFrame) : ℚ :=
  if poses = [] then 0
  else
    let posture_scores := poses.filterMap posture_frame_score
    if posture_scores = [] then 0 else mean posture_scores

/-- `_calculate_enhanced_scores`, with the Python dictionary embedded as
an association list in insertion order.  Note that the empty-sequence
early return carries only four keys. -/
def calculate_enhanced_scores (sqrt : ℚ → ℚ) (poses : List PoseFrame) : List (String × ℚ) :=
  if poses = [] then
    [("flow", 0), ("balance", 0), ("smoothness", 0), ("energy", 0)]
  else
    let smoothness_score := calculate_motion_smoothness sqrt poses
    let balance_score := calculate_balance_score sqrt poses
    let energy_score := calculate_energy_score sqrt poses
    let flow_score := (smoothness_score + balance_score + energy_score) / 3
    [("flow", min 100 flow_score),
     ("balance", min 100 balance_score),
     ("smoothness", min 100 smoothness_score),
     ("energy", min 100 energy_score),
     ("hand_activity", calculate_hand_activity sqrt poses),
     ("posture_stability", calculate_posture_stability poses)]

/-- `settings.analysis_min_frames` default. -/
def analysis_min_frames : ℕ := 30

/-- Number of frames whose body keypoint list is non-empty (the Python
truthiness test `if pose_frame.body_keypoints`). -/
def detected_frames_count (frames : List PoseFrame) : ℕ :=
  (frames.filter fun f => !f.body_keypoints.isEmpty).length

/-- The failures `analyze_video` can raise (`PoseDetectionError`): no
readable input images at all, or too few frames with a detected pose;
the latter carries the detected count, the total frame count and the
configured minimum, as the Python error message does. -/
inductive AnalyzeError : Type
  | noImages : AnalyzeError
  | insufficientDetection (detected total minimum : ℕ) : AnalyzeError
deriving DecidableEq, Repr

/-- The result payload assembled by `analyze_video` (the JSON-irrelevant
static feature flags are omitted). -/
structure AnalysisResult where
  pose_frames : List PoseFrame
  stick_figure_frames : List StickFigureFrame
  overall_scores : List (String × ℚ)
  detection_rate : ℚ
  frame_count : ℕ
  interpolated_frame_count : ℕ
  detected_frames_count : ℕ
deriving DecidableEq, Repr

/-- `PoseAnalyzer.analyze_video` from the point where the per-image
detector outputs are available: `frames` is the list of detector results
(one per readable image), `F` the interpolation factor, `W` the
smoothing window, `minF` the configured minimum detected-frame count. -/
def analyze_video (sqrt : ℚ → ℚ) (F W minF : ℕ) (frames : List PoseFrame) :
    Except AnalyzeError AnalysisResult :=
  if frames = [] then .error .noImages
  else
    let detected := detected_frames_count frames
    if detected < minF then
      .error (.insufficientDetection detected frames.length minF)
    else
      let interpolated_poses := interpolate_poses F frames
      let smoothed_poses := smooth_poses W interpolated_poses
      .ok
        { pose_frames := smoothed_poses
          stick_figure_frames := smoothed_poses.map generate_stick_figure_frame
          overall_scores := calculate_enhanced_scores sqrt smoothed_poses
          detection_rate := (detected : ℚ) / (frames.length : ℚ)
          frame_count := frames.length
          interpolated_frame_count := smoothed_poses.length
          detected_frames_count := detected }

end FlowState

namespace FlowState

/-- Sample keypoint with confidence 1. -/
def kpA : PoseKeypoint := { x := 0, y := 0, confidence := 1 }

/-- Sample keypoint with confidence 1/2. -/
def kpB : PoseKeypoint := { x := 2, y := 4, confidence := 1 / 2 }

/-- Sample frame at index 0. -/
def frameA : PoseFrame :=
  ⟨[kpA], [], [], [], 0, 0⟩

/-- Sample frame at index 1. -/
def frameB : PoseFrame :=
  ⟨[kpB], [], [], [], 1, 1⟩

/-- Sample frame with no detected keypoints. -/
def frameEmpty : PoseFrame :=
  ⟨[], [], [], [], 0, 0⟩

/-- Sample frame with 13 body keypoints, all at the origin with
confidence 1: indices 0, 5, 6, 11 and 12 all exist, but the frame has
fewer than 17 body keypoints. -/
def frame13 : PoseFrame :=
  ⟨[kpA, kpA, kpA, kpA, kpA, kpA, kpA, kpA, kpA, kpA, kpA, kpA, kpA], [], [], [], 0, 0⟩

/-- Sample frame with a negative frame index, one step before `frameB0`. -/
def frameNeg : PoseFrame :=
  ⟨[], [], [], [], 0, -1⟩

/-- Sample frame with frame index 0, one step after `frameNeg`. -/
def frameB0 : PoseFrame :=
  ⟨[], [], [], [], 1, 0⟩

/-- Clamp to the interval `[0, 100]`, as the spec words it. -/
def clamp100 (q : ℚ) : ℚ := max 0 (min 100 q)

/-- The per-frame posture score exactly as claim C5 words it: the frame
qualifies when the body keypoints at indices 0, 5, 6, 11, 12 all exist
(list length above 12) and all have confidence above 0.3, and the frame
score is `clamp(100 - |shoulderCenter.x - hipCenter.x| * 0.5, 0, 100)`. -/
def posture_frame_score_claim (pose : PoseFrame) : Option ℚ :=
  if 12 < pose.body_keypoints.length then
    let nose := pose.body_keypoints.getD 0 default
    let left_shoulder := pose.body_keypoints.getD 5 default
    let right_shoulder := pose.body_keypoints.getD 6 default
    let left_hip := pose.body_keypoints.getD 11 default
    let right_hip := pose.body_keypoints.getD 12 default
    if 3 / 10 < nose.confidence ∧ 3 / 10 < left_shoulder.confidence ∧
        3 / 10 < right_shoulder.confidence ∧ 3 / 10 < left_hip.confidence ∧
        3 / 10 < right_hip.confidence then
      let shoulder_center_x := (left_shoulder.x + right_shoulder.x) / 2
      let hip_center_x := (left_hip.x + right_hip.x) / 2
      let spine_deviation := |shoulder_center_x - hip_center_x|
      some (clamp100 (100 - spine_deviation * (5 / 10)))
    else none
  else none

/-- The overall posture-stability score exactly as claim C5 words it: the
mean over exactly the qualifying frames, 0 when no frame qualifies. -/
def posture_stability_claim (poses : List PoseFrame) : ℚ :=
  let posture_scores := poses.filterMap posture_frame_score_claim
  if posture_scores = [] then 0 else mean posture_scores

/-- The per-frame posture score as claim C5 must be amended to match the
code: the frame additionally qualifies only when it has at least 17 body
keypoints. -/
def posture_frame_score_amended (pose : PoseFrame) : Option ℚ :=
  if 17 ≤ pose.body_keypoints.length then
    let nose := pose.body_keypoints.getD 0 default
    let left_shoulder := pose.body_keypoints.getD 5 default
    let right_shoulder := pose.body_keypoints.getD 6 default
    let left_hip := pose.body_keypoints.getD 11 default
    let right_hip := pose.body_keypoints.getD 12 default
    if 3 / 10 < nose.confidence ∧ 3 / 10 < left_shoulder.confidence ∧
        3 / 10 < right_shoulder.confidence ∧ 3 / 10 < left_hip.confidence ∧
        3 / 10 < right_hip.confidence then
      let shoulder_center_x := (left_shoulder.x + right_shoulder.x) / 2
      let hip_center_x := (left_hip.x + right_hip.x) / 2
      let spine_deviation := |shoulder_center_x - hip_center_x|
      some (clamp100 (100 - spine_deviation * (5 / 10)))
    else none
  else none

/-- The amended overall posture-stability score: mean over the frames
that qualify under the amended per-frame rule, 0 when none qualifies. -/
def posture_stability_amended (poses : List PoseFrame) : ℚ :=
  let posture_scores := poses.filterMap posture_frame_score_amended
  if posture_scores = [] then 0 else mean posture_scores

/-- The per-frame ordering claim C10 speaks about: non-decreasing
timestamp and frame index. -/
def frame_le (a b : PoseFrame) : Prop :=
  a.timestamp ≤ b.timestamp ∧ a.frame_idx ≤ b.frame_idx

instance (a b : PoseFrame) : Decidable (frame_le a b) := by
  unfold frame_le
  exact inferInstance

theorem interpolate_go_head (F : ℕ) (q : PoseFrame) (rest : List PoseFrame) :
    (interpolate_go F (q :: rest)).head? = some q := by
  cases rest <;> simp [interpolate_go]

theorem interpolate_go_length (F : ℕ) (hF : 1 ≤ F) :
    ∀ l : List PoseFrame, l ≠ [] → (interpolate_go F l).length = (l.length - 1) * F + 1
  | [], h => absurd rfl h
  | [p], _ => by simp [interpolate_go]
  | p :: q :: rest, _ => by
    have ih := interpolate_go_length F hF (q :: rest) (by simp)
    simp only [interpolate_go, List.length_append, List.length_cons, List.length_map,
      List.length_range] at ih ⊢
    rw [ih]
    have h1 : rest.length + 1 + 1 - 1 = rest.length + 1 := by omega
    have h2 : rest.length + 1 - 1 = rest.length := by omega
    rw [h1, h2, Nat.succ_mul]
    omega

theorem interpolate_go_getElem (F : ℕ) (hF : 1 ≤ F) :
    ∀ (l : List PoseFrame) (i : ℕ), i < l.length → (interpolate_go F l)[i * F]? = l[i]?
  | [], _, h => by simp at h
  | [p], 0, _ => by simp [interpolate_go]
  | [p], i + 1, h => by simp at h
  | p :: q :: rest, 0, _ => by
    simp only [interpolate_go, Nat.zero_mul, List.cons_append, List.getElem?_cons_zero]
  | p :: q :: rest, i + 1, h => by
    have hblock : (p :: (List.range (F - 1)).map
        (fun j : ℕ => interpolate_single_pose p q (((j : ℚ) + 1) / (F : ℚ)))).length = F := by
      rw [List.length_cons, List.length_map, List.length_range]
      omega
    have hge : (p :: (List.range (F - 1)).map
        (fun j : ℕ => interpolate_single_pose p q (((j : ℚ) + 1) / (F : ℚ)))).length ≤ (i + 1) * F := by
      rw [hblock]
      calc F = 1 * F := (one_mul F).symm
        _ ≤ (i + 1) * F := Nat.mul_le_mul_right F (by omega)
    have ih := interpolate_go_getElem F hF (q :: rest) i (by
      simp only [List.length_cons] at h ⊢
      omega)
    have hsub : (i + 1) * F - F = i * F := by rw [Nat.succ_mul]; omega
    simp only [interpolate_go]
    rw [List.getElem?_append_right hge, hblock, hsub, ih, List.getElem?_cons_succ]

/-- C1: for a sequence of length at least 2 and factor at least 1 the
interpolator output has length exactly `(n-1)*F + 1` with the original
frames sitting unchanged at positions `0, F, 2F, ...`; a sequence of
length below 2 is returned unchanged. -/
theorem c1_interpolator_shape (F : ℕ) (poses : List PoseFrame) :
    (2 ≤ poses.length → 1 ≤ F →
      (interpolate_poses F poses).length = (poses.length - 1) * F + 1 ∧
      ∀ i, i < poses.length → (interpolate_poses F poses)[i * F]? = poses[i]?) ∧
    (poses.length < 2 → interpolate_poses F poses = poses) := by
  constructor
  · intro h2 hF
    have hne : ¬ poses.length < 2 := by omega
    rw [interpolate_poses, if_neg hne]
    exact ⟨interpolate_go_length F hF poses (by intro hnil; simp [hnil] at h2),
      fun i hi => interpolate_go_getElem F hF poses i hi⟩
  · intro h2
    rw [interpolate_poses, if_pos h2]

/-- Witness for C1 at the two-frame sequence `[frameA, frameB]`, `F = 2`. -/
theorem c1_interpolator_shape_witness :
    2 ≤ ([frameA, frameB] : List PoseFrame).length ∧ 1 ≤ 2 ∧
      (interpolate_poses 2 [frameA, frameB]).length =
        (([frameA, frameB] : List PoseFrame).length - 1) * 2 + 1 :=
  ⟨by decide, by decide,
    ((c1_interpolator_shape 2 [frameA, frameB]).1 (by decide) (by decide)).1⟩

end FlowState

namespace FlowState

theorem getElem?_isSome_iff {α : Type} (l : List α) (i : ℕ) :
    l[i]?.isSome ↔ i < l.length := by
  rw [Option.isSome_iff_ne_none]
  simp [List.getElem?_eq_none_iff]

theorem zipWith_getElem?_eq {α β γ : Type} (f : α → β → γ) :
    ∀ (l1 : List α) (l2 : List β) (k : ℕ),
    (List.zipWith f l1 l2)[k]? = (l1[k]?).bind fun a => (l2[k]?).map (f a)
  | [], _, _ => by simp
  | _ :: _, [], _ => by simp
  | a :: l1, b :: l2, 0 => by simp
  | a :: l1, b :: l2, (k + 1) => by
    simp only [List.zipWith_cons_cons, List.getElem?_cons_succ]
    exact zipWith_getElem?_eq f l1 l2 k

theorem interp_list_spec (α : ℚ) (l1 l2 : List PoseKeypoint) (k : ℕ) :
    ((List.zipWith (interp_keypoint α) l1 l2)[k]?.isSome ↔ k < l1.length ∧ k < l2.length) ∧
    ∀ kp1 kp2, l1[k]? = some kp1 → l2[k]? = some kp2 →
      (List.zipWith (interp_keypoint α) l1 l2)[k]? = some
        { x := kp1.x + α * (kp2.x - kp1.x), y := kp1.y + α * (kp2.y - kp1.y),
          confidence := min kp1.confidence kp2.confidence, z := 0 } := by
  constructor
  · rw [zipWith_getElem?_eq, ← getElem?_isSome_iff l1 k, ← getElem?_isSome_iff l2 k]
    cases l1[k]? <;> cases l2[k]? <;> simp
  · intro kp1 kp2 h1 h2
    rw [zipWith_getElem?_eq, h1, h2]
    rfl

/-- C2: an interpolated keypoint at index `k` exists iff both source
frames have index `k` in the corresponding list; its coordinates are
`p1 + α*(p2-p1)`, its confidence `min(conf1, conf2)`; the timestamp is
linearly interpolated with the same `α` and the frame index is the
truncated (`pyInt`) linear interpolation.  Identical for body, left
hand, right hand and face lists. -/
theorem c2_single_pose_interpolation (p1 p2 : PoseFrame) (α : ℚ) (k : ℕ) :
    (((interpolate_single_pose p1 p2 α).body_keypoints[k]?.isSome ↔
        k < p1.body_keypoints.length ∧ k < p2.body_keypoints.length) ∧
      ∀ kp1 kp2, p1.body_keypoints[k]? = some kp1 → p2.body_keypoints[k]? = some kp2 →
        (interpolate_single_pose p1 p2 α).body_keypoints[k]? = some
          { x := kp1.x + α * (kp2.x - kp1.x), y := kp1.y + α * (kp2.y - kp1.y),
            confidence := min kp1.confidence kp2.confidence, z := 0 }) ∧
    (((interpolate_single_pose p1 p2 α).hand_keypoints_left[k]?.isSome ↔
        k < p1.hand_keypoints_left.length ∧ k < p2.hand_keypoints_left.length) ∧
      ∀ kp1 kp2, p1.hand_keypoints_left[k]? = some kp1 → p2.hand_keypoints_left[k]? = some kp2 →
        (interpolate_single_pose p1 p2 α).hand_keypoints_left[k]? = some
          { x := kp1.x + α * (kp2.x - kp1.x), y := kp1.y + α * (kp2.y - kp1.y),
            confidence := min kp1.confidence kp2.confidence, z := 0 }) ∧
    (((interpolate_single_pose p1 p2 α).hand_keypoints_right[k]?.isSome ↔
        k < p1.hand_keypoints_right.length ∧ k < p2.hand_keypoints_right.length) ∧
      ∀ kp1 kp2, p1.hand_keypoints_right[k]? = some kp1 → p2.hand_keypoints_right[k]? = some kp2 →
        (interpolate_single_pose p1 p2 α).hand_keypoints_right[k]? = some
          { x := kp1.x + α * (kp2.x - kp1.x), y := kp1.y + α * (kp2.y - kp1.y),
            confidence := min kp1.confidence kp2.confidence, z := 0 }) ∧
    (((interpolate_single_pose p1 p2 α).face_keypoints[k]?.isSome ↔
        k < p1.face_keypoints.length ∧ k < p2.face_keypoints.length) ∧
      ∀ kp1 kp2, p1.face_keypoints[k]? = some kp1 → p2.face_keypoints[k]? = some kp2 →
        (interpolate_single_pose p1 p2 α).face_keypoints[k]? = some
          { x := kp1.x + α * (kp2.x - kp1.x), y := kp1.y + α * (kp2.y - kp1.y),
            confidence := min kp1.confidence kp2.confidence, z := 0 }) ∧
    (interpolate_single_pose p1 p2 α).timestamp =
      p1.timestamp + α * (p2.timestamp - p1.timestamp) ∧
    (interpolate_single_pose p1 p2 α).frame_idx =
      pyInt ((p1.frame_idx : ℚ) + α * ((p2.frame_idx : ℚ) - (p1.frame_idx : ℚ))) :=
  ⟨interp_list_spec α p1.body_keypoints p2.body_keypoints k,
   interp_list_spec α p1.hand_keypoints_left p2.hand_keypoints_left k,
   interp_list_spec α p1.hand_keypoints_right p2.hand_keypoints_right k,
   interp_list_spec α p1.face_keypoints p2.face_keypoints k,
   rfl, rfl⟩

/-- Witness for C2 at the sample frames, `α = 1/2`, index 0. -/
theorem c2_single_pose_interpolation_witness :
    (0 < frameA.body_keypoints.length ∧ 0 < frameB.body_keypoints.length) ∧
      (interpolate_single_pose frameA frameB (1 / 2)).body_keypoints[0]?.isSome :=
  ⟨by decide,
    ((c2_single_pose_interpolation frameA frameB (1 / 2) 0).1.1).mpr (by decide)⟩

end FlowState

namespace FlowState

theorem smooth_poses_eq_self (W : ℕ) (poses : List PoseFrame) :
    smooth_poses W poses = poses := by
  unfold smooth_poses
  split
  · rfl
  · next hnlt =>
    have hW : W ≤ poses.length := le_of_not_lt hnlt
    have hlen : ((List.range poses.length).map fun i =>
        let s := i - W / 2
        let e := min poses.length (i + W / 2 + 1)
        gaussian_smooth_pose ((poses.drop s).take (e - s)) (i - s)).length = poses.length := by
      rw [List.length_map, List.length_range]
    apply List.ext_getElem hlen
    intro i h1 h2
    rw [List.getElem_map, List.getElem_range]
    show gaussian_smooth_pose
      ((poses.drop (i - W / 2)).take (min poses.length (i + W / 2 + 1) - (i - W / 2)))
      (i - (i - W / 2)) = poses[i]
    have hs_le : i - W / 2 ≤ i := Nat.sub_le _ _
    have hi_lt_e : i < min poses.length (i + W / 2 + 1) := lt_min h2 (by omega)
    have hwin_len : ((poses.drop (i - W / 2)).take
        (min poses.length (i + W / 2 + 1) - (i - W / 2))).length =
        min poses.length (i + W / 2 + 1) - (i - W / 2) := by
      rw [List.length_take, List.length_drop]
      omega
    have hcenter_lt : i - (i - W / 2) <
        min poses.length (i + W / 2 + 1) - (i - W / 2) := by omega
    rw [gaussian_smooth_pose, if_neg (by omega)]
    have hgetd : ∀ (l : List PoseFrame) (n : ℕ), l.getD n default = (l[n]?).getD default := by
      intro l n
      rw [List.getD_eq_getElem?_getD]
    rw [hgetd]
    rw [List.getElem?_take_of_lt hcenter_lt]
    rw [List.getElem?_drop]
    have : i - W / 2 + (i - (i - W / 2)) = i := by omega
    rw [this, List.getElem?_eq_getElem h2]
    rfl

/-- C8: for every window size and every input sequence, the smoother
returns the input sequence itself (the centered-frame policy), hence in
particular a sequence of the same length and order. -/
theorem c8_smoother_identity (W : ℕ) (poses : List PoseFrame) :
    smooth_poses W poses = poses ∧ (smooth_poses W poses).length = poses.length :=
  ⟨smooth_poses_eq_self W poses, by rw [smooth_poses_eq_self W poses]⟩

end FlowState

namespace FlowState

theorem emit_edge_isSome_iff (kps : List PoseKeypoint) (a b : ℕ) :
    (emit_edge kps (a, b)).isSome ↔
      a < kps.length ∧ b < kps.length ∧
      3 / 10 < (kps.getD a default).confidence ∧ 3 / 10 < (kps.getD b default).confidence := by
  unfold emit_edge
  split_ifs with h1 <;> simp_all

theorem emit_edge_some_spec (kps : List PoseKeypoint) (e : ℕ × ℕ) (s : Segment)
    (h : emit_edge kps e = some s) :
    e.1 < kps.length ∧ e.2 < kps.length ∧
    3 / 10 < (kps.getD e.1 default).confidence ∧ 3 / 10 < (kps.getD e.2 default).confidence ∧
    s.confidence = min (kps.getD e.1 default).confidence (kps.getD e.2 default).confidence := by
  unfold emit_edge at h
  split_ifs at h with h1
  dsimp only at h
  split_ifs at h with h2
  simp only [Option.some.injEq] at h
  subst h
  exact ⟨h1.1, h1.2, h2.1, h2.2, rfl⟩

/-- C7: for every keypoint list and topology edge, a segment is emitted
iff both endpoint indices are in bounds and both endpoint confidences
exceed 0.3, and the segment confidence is the minimum of the endpoint
confidences; every segment in a filtered edge list therefore comes from
such an edge; the frame-level builder applies exactly this per-edge rule
to the body and hand topologies. -/
theorem c7_graph_builder_safety :
    (∀ (kps : List PoseKeypoint) (a b : ℕ),
      ((emit_edge kps (a, b)).isSome ↔
        a < kps.length ∧ b < kps.length ∧
        3 / 10 < (kps.getD a default).confidence ∧
        3 / 10 < (kps.getD b default).confidence) ∧
      ∀ s : Segment, emit_edge kps (a, b) = some s →
        s.confidence = min (kps.getD a default).confidence (kps.getD b default).confidence) ∧
    (∀ (edges : List (ℕ × ℕ)) (kps : List PoseKeypoint) (s : Segment),
      s ∈ edges.filterMap (emit_edge kps) →
      ∃ a b, (a, b) ∈ edges ∧ a < kps.length ∧ b < kps.length ∧
        3 / 10 < (kps.getD a default).confidence ∧
        3 / 10 < (kps.getD b default).confidence ∧
        s.confidence = min (kps.getD a default).confidence (kps.getD b default).confidence) ∧
    ∀ pose : PoseFrame,
      (generate_stick_figure_frame pose).body_connections =
        BODY_CONNECTIONS.filterMap (emit_edge pose.body_keypoints) ∧
      (generate_stick_figure_frame pose).hand_connections_left =
        HAND_CONNECTIONS.filterMap (emit_edge pose.hand_keypoints_left) ∧
      (generate_stick_figure_frame pose).hand_connections_right =
        HAND_CONNECTIONS.filterMap (emit_edge pose.hand_keypoints_right) := by
  refine ⟨fun kps a b => ⟨emit_edge_isSome_iff kps a b, fun s hs => ?_⟩,
    fun edges kps s hs => ?_, fun pose => ⟨rfl, rfl, rfl⟩⟩
  · exact (emit_edge_some_spec kps (a, b) s hs).2.2.2.2
  · obtain ⟨e, he, heq⟩ := List.mem_filterMap.mp hs
    obtain ⟨hb1, hb2, hc1, hc2, hconf⟩ := emit_edge_some_spec kps e s heq
    exact ⟨e.1, e.2, by simpa using he, hb1, hb2, hc1, hc2, hconf⟩

/-- Witness for C7: a two-keypoint list with confidences 1 emits a
segment for the edge `(0, 1)`. -/
theorem c7_graph_builder_safety_witness :
    (0 < ([kpA, kpA] : List PoseKeypoint).length ∧
      1 < ([kpA, kpA] : List PoseKeypoint).length ∧
      3 / 10 < (([kpA, kpA] : List PoseKeypoint).getD 0 default).confidence ∧
      3 / 10 < (([kpA, kpA] : List PoseKeypoint).getD 1 default).confidence) ∧
    (emit_edge [kpA, kpA] (0, 1)).isSome :=
  ⟨⟨by decide, by decide, by norm_num [kpA], by norm_num [kpA]⟩,
    (c7_graph_builder_safety.1 [kpA, kpA] 0 1).1.mpr
      ⟨by decide, by decide, by norm_num [kpA], by norm_num [kpA]⟩⟩

end FlowState

namespace FlowState

theorem mean_nonneg (l : List ℚ) (h : ∀ x ∈ l, 0 ≤ x) : 0 ≤ mean l :=
  div_nonneg (List.sum_nonneg h) (Nat.cast_nonneg _)

theorem mean_le_of_forall_le (l : List ℚ) (hne : l ≠ []) (c : ℚ)
    (hc : ∀ x ∈ l, x ≤ c) : mean l ≤ c := by
  have hlen : 0 < (l.length : ℚ) := by
    exact_mod_cast List.length_pos.mpr hne
  rw [mean, div_le_iff₀ hlen]
  have := List.sum_le_card_nsmul l c hc
  simpa [nsmul_eq_mul, mul_comm] using this

theorem np_std_nonneg (sqrt : ℚ → ℚ) (hsq : ∀ x, 0 ≤ x → 0 ≤ sqrt x)
    (l : List ℚ) : 0 ≤ np_std sqrt l := by
  apply hsq
  apply mean_nonneg
  intro x hx
  obtain ⟨y, _, rfl⟩ := List.mem_map.mp hx
  positivity

theorem mem_concatMap {α β : Type} (f : α → List β) :
    ∀ (l : List α) (b : β), b ∈ concatMap f l ↔ ∃ a ∈ l, b ∈ f a
  | [], b => by simp [concatMap]
  | a :: as, b => by
    simp [concatMap, List.mem_append, mem_concatMap f as b]

theorem movement_list_nonneg (sqrt : ℚ → ℚ) (hsq : ∀ x, 0 ≤ x → 0 ≤ sqrt x) :
    ∀ (l1 l2 : List PoseKeypoint) (x : ℚ), x ∈ movement_list sqrt l1 l2 → 0 ≤ x
  | k1 :: l1, k2 :: l2, x => by
    intro hx
    simp only [movement_list] at hx
    rcases List.mem_append.mp hx with h | h
    · split_ifs at h with hc
      · simp only [List.mem_singleton] at h
        subst h
        exact hsq _ (by positivity)
      · simp at h
    · exact movement_list_nonneg sqrt hsq l1 l2 x h
  | [], _, x => by intro hx; simp [movement_list] at hx
  | _ :: _, [], x => by intro hx; simp [movement_list] at hx

theorem accel_list_nonneg (sqrt : ℚ → ℚ) (hsq : ∀ x, 0 ≤ x → 0 ≤ sqrt x) :
    ∀ (l1 l2 l3 : List PoseKeypoint) (x : ℚ), x ∈ accel_list sqrt l1 l2 l3 → 0 ≤ x
  | k1 :: l1, k2 :: l2, k3 :: l3, x => by
    intro hx
    simp only [accel_list] at hx
    rcases List.mem_append.mp hx with h | h
    · split_ifs at h with hc
      · simp only [List.mem_singleton] at h
        subst h
        exact hsq _ (by positivity)
      · simp at h
    · exact accel_list_nonneg sqrt hsq l1 l2 l3 x h
  | [], _, _, x => by intro hx; simp [accel_list] at hx
  | _ :: _, [], _, x => by intro hx; simp [accel_list] at hx
  | _ :: _, _ :: _, [], x => by intro hx; simp [accel_list] at hx

theorem max_clip_bounds {d c : ℚ} (hd : 0 ≤ d) (hc : 0 ≤ c) :
    0 ≤ max 0 (100 - d * c) ∧ max 0 (100 - d * c) ≤ 100 :=
  ⟨le_max_left _ _, max_le (by norm_num) (by nlinarith)⟩

theorem smoothness_bounds (sqrt : ℚ → ℚ) (hsq : ∀ x, 0 ≤ x → 0 ≤ sqrt x)
    (poses : List PoseFrame) :
    0 ≤ calculate_motion_smoothness sqrt poses ∧
      calculate_motion_smoothness sqrt poses ≤ 100 := by
  rw [calculate_motion_smoothness]
  by_cases h1 : poses.length < 2
  · rw [if_pos h1]; norm_num
  · rw [if_neg h1]
    dsimp only
    by_cases h2 : concatMap (accel_triple sqrt) (triples poses) = []
    · rw [if_pos h2]; norm_num
    · rw [if_neg h2]
      have hstd := np_std_nonneg sqrt hsq (concatMap (accel_triple sqrt) (triples poses))
      exact ⟨le_max_left 0 _, max_le (by norm_num) (by linarith)⟩

theorem balance_frame_score_bounds (sqrt : ℚ → ℚ) (hsq : ∀ x, 0 ≤ x → 0 ≤ sqrt x)
    (pose : PoseFrame) (x : ℚ) (h : balance_frame_score sqrt pose = some x) :
    0 ≤ x ∧ x ≤ 100 := by
  unfold balance_frame_score at h
  split_ifs at h with h1
  dsimp only at h
  split_ifs at h with h2
  simp only [Option.some.injEq] at h
  subst h
  exact max_clip_bounds (hsq _ (by positivity)) (by norm_num)

theorem balance_bounds (sqrt : ℚ → ℚ) (hsq : ∀ x, 0 ≤ x → 0 ≤ sqrt x)
    (poses : List PoseFrame) :
    0 ≤ calculate_balance_score sqrt poses ∧ calculate_balance_score sqrt poses ≤ 100 := by
  rw [calculate_balance_score]
  by_cases h1 : poses = []
  · rw [if_pos h1]; norm_num
  · rw [if_neg h1]
    dsimp only
    by_cases h2 : poses.filterMap (balance_frame_score sqrt) = []
    · rw [if_pos h2]; norm_num
    · rw [if_neg h2]
      have hmem : ∀ x ∈ poses.filterMap (balance_frame_score sqrt), 0 ≤ x ∧ x ≤ 100 := by
        intro x hx
        obtain ⟨pose, _, hp⟩ := List.mem_filterMap.mp hx
        exact balance_frame_score_bounds sqrt hsq pose x hp
      exact ⟨mean_nonneg _ (fun x hx => (hmem x hx).1),
        mean_le_of_forall_le _ h2 100 (fun x hx => (hmem x hx).2)⟩

theorem energy_pair_score_nonneg (sqrt : ℚ → ℚ) (hsq : ∀ x, 0 ≤ x → 0 ≤ sqrt x)
    (pq : PoseFrame × PoseFrame) (x : ℚ) (h : energy_pair_score sqrt pq = some x) :
    0 ≤ x := by
  unfold energy_pair_score at h
  dsimp only at h
  split_ifs at h with h1
  simp only [Option.some.injEq] at h
  subst h
  exact div_nonneg (List.sum_nonneg
    (fun y hy => movement_list_nonneg sqrt hsq _ _ y hy)) (Nat.cast_nonneg _)

theorem energy_bounds (sqrt : ℚ → ℚ) (hsq : ∀ x, 0 ≤ x → 0 ≤ sqrt x)
    (poses : List PoseFrame) :
    0 ≤ calculate_energy_score sqrt poses ∧ calculate_energy_score sqrt poses ≤ 100 := by
  rw [calculate_energy_score]
  by_cases h1 : poses.length < 2
  · rw [if_pos h1]; norm_num
  · rw [if_neg h1]
    dsimp only
    by_cases h2 : (pairs poses).filterMap (energy_pair_score sqrt) = []
    · rw [if_pos h2]; norm_num
    · rw [if_neg h2]
      have hmean : 0 ≤ mean ((pairs poses).filterMap (energy_pair_score sqrt)) := by
        apply mean_nonneg
        intro x hx
        obtain ⟨pq, _, hp⟩ := List.mem_filterMap.mp hx
        exact energy_pair_score_nonneg sqrt hsq pq x hp
      exact ⟨le_min (by norm_num) (by linarith), min_le_left _ _⟩

theorem hand_pair_movements_nonneg (sqrt : ℚ → ℚ) (hsq : ∀ x, 0 ≤ x → 0 ≤ sqrt x)
    (pq : PoseFrame × PoseFrame) (x : ℚ) (h : x ∈ hand_pair_movements sqrt pq) :
    0 ≤ x := by
  unfold hand_pair_movements at h
  rcases List.mem_append.mp h with h' | h' <;>
    [skip; skip] <;>
    · split_ifs at h' with hc
      · exact movement_list_nonneg sqrt hsq _ _ x h'
      · simp at h'

theorem hand_bounds (sqrt : ℚ → ℚ) (hsq : ∀ x, 0 ≤ x → 0 ≤ sqrt x)
    (poses : List PoseFrame) :
    0 ≤ calculate_hand_activity sqrt poses ∧ calculate_hand_activity sqrt poses ≤ 100 := by
  rw [calculate_hand_activity]
  by_cases h1 : poses.length < 2
  · rw [if_pos h1]; norm_num
  · rw [if_neg h1]
    dsimp only
    by_cases h2 : concatMap (hand_pair_movements sqrt) (pairs poses) = []
    · rw [if_pos h2]; norm_num
    · rw [if_neg h2]
      have hmean : 0 ≤ mean (concatMap (hand_pair_movements sqrt) (pairs poses)) := by
        apply mean_nonneg
        intro x hx
        obtain ⟨pq, _, hp⟩ := (mem_concatMap (hand_pair_movements sqrt) (pairs poses) x).mp hx
        exact hand_pair_movements_nonneg sqrt hsq pq x hp
      exact ⟨le_min (by norm_num) (by linarith), min_le_left _ _⟩

theorem posture_frame_score_bounds (pose : PoseFrame) (x : ℚ)
    (h : posture_frame_score pose = some x) : 0 ≤ x ∧ x ≤ 100 := by
  unfold posture_frame_score at h
  split_ifs at h with h1
  dsimp only at h
  split_ifs at h with h2
  simp only [Option.some.injEq] at h
  subst h
  exact max_clip_bounds (abs_nonneg _) (by norm_num)

theorem posture_bounds (poses : List PoseFrame) :
    0 ≤ calculate_posture_stability poses ∧ calculate_posture_stability poses ≤ 100 := by
  rw [calculate_posture_stability]
  by_cases h1 : poses = []
  · rw [if_pos h1]; norm_num
  · rw [if_neg h1]
    dsimp only
    by_cases h2 : poses.filterMap posture_frame_score = []
    · rw [if_pos h2]; norm_num
    · rw [if_neg h2]
      have hmem : ∀ x ∈ poses.filterMap posture_frame_score, 0 ≤ x ∧ x ≤ 100 := by
        intro x hx
        obtain ⟨pose, _, hp⟩ := List.mem_filterMap.mp hx
        exact posture_frame_score_bounds pose x hp
      exact ⟨mean_nonneg _ (fun x hx => (hmem x hx).1),
        mean_le_of_forall_le _ h2 100 (fun x hx => (hmem x hx).2)⟩

end FlowState

namespace FlowState

/-- C3: every score the Score Engine produces, for any input sequence
including the degenerate ones, lies in `[0, 100]`. -/
theorem c3_scores_in_range (sqrt : ℚ → ℚ) (poses : List PoseFrame)
    (hsq : ∀ x, 0 ≤ x → 0 ≤ sqrt x) :
    ∀ s q, (s, q) ∈ calculate_enhanced_scores sqrt poses → 0 ≤ q ∧ q ≤ 100 := by
  intro s q hmem
  rw [calculate_enhanced_scores] at hmem
  by_cases hp : poses = []
  · rw [if_pos hp] at hmem
    simp only [List.mem_cons, List.not_mem_nil, or_false, Prod.mk.injEq] at hmem
    rcases hmem with ⟨-, rfl⟩ | ⟨-, rfl⟩ | ⟨-, rfl⟩ | ⟨-, rfl⟩ <;> norm_num
  · rw [if_neg hp] at hmem
    dsimp only at hmem
    have hs := smoothness_bounds sqrt hsq poses
    have hb := balance_bounds sqrt hsq poses
    have he := energy_bounds sqrt hsq poses
    have hh := hand_bounds sqrt hsq poses
    have hps := posture_bounds poses
    simp only [List.mem_cons, List.not_mem_nil, or_false, Prod.mk.injEq] at hmem
    rcases hmem with ⟨-, rfl⟩ | ⟨-, rfl⟩ | ⟨-, rfl⟩ | ⟨-, rfl⟩ | ⟨-, rfl⟩ | ⟨-, rfl⟩
    · exact ⟨le_min (by norm_num) (div_nonneg (by linarith) (by norm_num)), min_le_left _ _⟩
    · exact ⟨le_min (by norm_num) hb.1, min_le_left _ _⟩
    · exact ⟨le_min (by norm_num) hs.1, min_le_left _ _⟩
    · exact ⟨le_min (by norm_num) he.1, min_le_left _ _⟩
    · exact hh
    · exact hps

/-- Witness for C3 at the empty sequence and the identity square root. -/
theorem c3_scores_in_range_witness :
    (("flow", (0 : ℚ)) ∈ calculate_enhanced_scores (fun y : ℚ => y) []) ∧
      (0 ≤ (0 : ℚ) ∧ (0 : ℚ) ≤ 100) :=
  ⟨by simp [calculate_enhanced_scores],
    c3_scores_in_range (fun y : ℚ => y) [] (fun _ hx => hx) "flow" 0
      (by simp [calculate_enhanced_scores])⟩

/-- C4 counterexample: on the empty sequence the Score Engine result has
no `hand_activity` entry at all, so not all six scores are present. -/
theorem c4_counterexample :
    "hand_activity" ∉ (calculate_enhanced_scores (fun y : ℚ => y) []).map Prod.fst := by
  simp [calculate_enhanced_scores]

/-- C4 as amended: for the empty sequence the Score Engine returns
exactly the four entries flow, balance, smoothness and energy, each 0;
hand activity and posture stability are absent. -/
theorem c4_empty_scores (sqrt : ℚ → ℚ) :
    calculate_enhanced_scores sqrt [] =
      [("flow", 0), ("balance", 0), ("smoothness", 0), ("energy", 0)] ∧
    "hand_activity" ∉ (calculate_enhanced_scores sqrt []).map Prod.fst ∧
    "posture_stability" ∉ (calculate_enhanced_scores sqrt []).map Prod.fst :=
  ⟨rfl, by simp [calculate_enhanced_scores], by simp [calculate_enhanced_scores]⟩

/-- C5 counterexample: a single frame with 13 body keypoints, all with
confidence 1 and zero spine deviation, qualifies under the claim wording
(score 100) but the code returns 0 because it requires at least 17 body
keypoints. -/
theorem c5_counterexample :
    calculate_posture_stability [frame13] = 0 ∧
      posture_stability_claim [frame13] = 100 := by
  have h13 : posture_frame_score frame13 = none := by
    unfold posture_frame_score
    rw [if_neg (by decide)]
  have h13c : posture_frame_score_claim frame13 = some 100 := by
    unfold posture_frame_score_claim
    rw [if_pos (by decide)]
    dsimp only
    rw [if_pos (by norm_num [frame13, kpA, List.getD_cons_zero, List.getD_cons_succ])]
    norm_num [frame13, kpA, clamp100, List.getD_cons_zero, List.getD_cons_succ]
  constructor
  · rw [calculate_posture_stability, if_neg (by simp)]
    dsimp only
    simp [List.filterMap_cons, h13]
  · rw [posture_stability_claim]
    rw [show List.filterMap posture_frame_score_claim [frame13] = [100] by
      simp [List.filterMap_cons, h13c]]
    norm_num [mean]

/-- C5 as amended: the posture-stability score equals the claim formula
with qualification additionally requiring at least 17 body keypoints. -/
theorem c5_posture_amended (poses : List PoseFrame) :
    calculate_posture_stability poses = posture_stability_amended poses := by
  have hfun : ∀ pose : PoseFrame,
      posture_frame_score pose = posture_frame_score_amended pose := by
    intro pose
    unfold posture_frame_score posture_frame_score_amended
    split_ifs with h1
    · dsimp only
      split_ifs with h2
      · congr 1
        rw [clamp100, min_eq_right (sub_le_self 100 (by positivity))]
      · rfl
    · rfl
  rw [calculate_posture_stability, posture_stability_amended]
  by_cases hp : poses = []
  · subst hp
    simp
  · rw [if_neg hp]
    dsimp only
    rw [List.filterMap_congr (fun a _ => hfun a)]

end FlowState

namespace FlowState

/-- C9 as amended: for every sequence the flow entry equals
`clamp((smoothness + balance + energy) / 3, 0, 100)` computed on that
sequence; for every non-empty sequence the hand-activity and
posture-stability entries are present (with their own scores) and do not
enter the flow average. -/
theorem c9_flow_composition (sqrt : ℚ → ℚ) (poses : List PoseFrame)
    (hsq : ∀ x, 0 ≤ x → 0 ≤ sqrt x) :
    (calculate_enhanced_scores sqrt poses).lookup "flow" =
      some (clamp100 ((calculate_motion_smoothness sqrt poses +
        calculate_balance_score sqrt poses + calculate_energy_score sqrt poses) / 3)) ∧
    (poses ≠ [] →
      (calculate_enhanced_scores sqrt poses).lookup "hand_activity" =
        some (calculate_hand_activity sqrt poses) ∧
      (calculate_enhanced_scores sqrt poses).lookup "posture_stability" =
        some (calculate_posture_stability poses)) := by
  by_cases hp : poses = []
  · subst hp
    refine ⟨?_, fun h => absurd rfl h⟩
    have h1 : calculate_motion_smoothness sqrt [] = 0 := rfl
    have h2 : calculate_balance_score sqrt [] = 0 := rfl
    have h3 : calculate_energy_score sqrt [] = 0 := rfl
    rw [h1, h2, h3]
    norm_num [calculate_enhanced_scores, List.lookup, clamp100]
  · have hs := smoothness_bounds sqrt hsq poses
    have hb := balance_bounds sqrt hsq poses
    have he := energy_bounds sqrt hsq poses
    rw [calculate_enhanced_scores, if_neg hp]
    dsimp only
    constructor
    · simp only [List.lookup]
      norm_num
      rw [clamp100, max_eq_right (le_min (by norm_num)
        (div_nonneg (by linarith) (by norm_num)))]
    · intro _
      constructor <;> rfl

/-- Witness for C9 at the one-frame sequence `[frameA]` with the
identity square root. -/
theorem c9_flow_composition_witness :
    (([frameA] : List PoseFrame) ≠ []) ∧
      (calculate_enhanced_scores (fun y : ℚ => y) [frameA]).lookup "hand_activity" =
        some (calculate_hand_activity (fun y : ℚ => y) [frameA]) :=
  ⟨by simp,
    ((c9_flow_composition (fun y : ℚ => y) [frameA] (fun _ hx => hx)).2 (by simp)).1⟩

/-- C9 counterexample: on the empty sequence the score set contains no
`posture_stability` entry, so hand activity and posture stability are
not present in the score set of every sequence. -/
theorem c9_counterexample :
    "posture_stability" ∉ (calculate_enhanced_scores (fun y : ℚ => y) []).map Prod.fst := by
  simp [calculate_enhanced_scores]

end FlowState

namespace FlowState

/-- C6: the orchestrator fails with the detection-insufficiency error
exactly when the number of frames with a non-empty body keypoint list is
below the configured minimum; the error carries the detected count, the
total frame count and the minimum; otherwise the pipeline proceeds and
the payload carries `detection_rate = detected / total`. -/
theorem c6_detection_gate (sqrt : ℚ → ℚ) (F W minF : ℕ) (frames : List PoseFrame)
    (hne : frames ≠ []) :
    ((∃ d t m, analyze_video sqrt F W minF frames =
        .error (.insufficientDetection d t m)) ↔
      detected_frames_count frames < minF) ∧
    (∀ d t m, analyze_video sqrt F W minF frames =
        .error (.insufficientDetection d t m) →
      d = detected_frames_count frames ∧ t = frames.length ∧ m = minF) ∧
    (detected_frames_count frames < minF →
      analyze_video sqrt F W minF frames =
        .error (.insufficientDetection (detected_frames_count frames)
          frames.length minF)) ∧
    (minF ≤ detected_frames_count frames →
      ∃ r, analyze_video sqrt F W minF frames = .ok r ∧
        r.detection_rate = (detected_frames_count frames : ℚ) / (frames.length : ℚ) ∧
        r.detected_frames_count = detected_frames_count frames ∧
        r.frame_count = frames.length) := by
  rw [analyze_video, if_neg hne]
  dsimp only
  by_cases hd : detected_frames_count frames < minF
  · rw [if_pos hd]
    refine ⟨⟨fun _ => hd, fun _ => ⟨_, _, _, rfl⟩⟩, ?_, fun _ => rfl,
      fun hge => absurd hge (not_le.mpr hd)⟩
    intro d t m h
    simp only [Except.error.injEq, AnalyzeError.insufficientDetection.injEq] at h
    exact ⟨h.1.symm, h.2.1.symm, h.2.2.symm⟩
  · rw [if_neg hd]
    refine ⟨⟨?_, fun h => absurd h hd⟩, ?_, fun h => absurd h hd,
      fun _ => ⟨_, rfl, rfl, rfl, rfl⟩⟩
    · rintro ⟨d, t, m, h⟩
      exact absurd h (by simp)
    · intro d t m h
      exact absurd h (by simp)

/-- Witness for C6: a batch of 40 frames with empty body keypoints fails
the default minimum of 30 with the error carrying 0, 40 and 30. -/
theorem c6_detection_gate_witness :
    (List.replicate 40 frameEmpty ≠ []) ∧
      analyze_video (fun y : ℚ => y) 10 5 analysis_min_frames
          (List.replicate 40 frameEmpty) =
        .error (.insufficientDetection
          (detected_frames_count (List.replicate 40 frameEmpty))
          (List.replicate 40 frameEmpty).length analysis_min_frames) :=
  ⟨by decide,
    (c6_detection_gate (fun y : ℚ => y) 10 5 analysis_min_frames
      (List.replicate 40 frameEmpty) (by decide)).2.2.1 (by decide)⟩

end FlowState

namespace FlowState

theorem pyInt_mono {x y : ℚ} (h : x ≤ y) : pyInt x ≤ pyInt y := by
  unfold pyInt
  split_ifs with hx hy hy
  · exact Int.floor_le_floor h
  · exact absurd (le_trans hx h) hy
  · exact le_trans (Int.ceil_le.mpr (by exact_mod_cast le_of_not_le hx))
      (Int.floor_nonneg.mpr hy)
  · exact Int.ceil_le_ceil h

theorem pyInt_intCast (n : ℤ) : pyInt (n : ℚ) = n := by
  unfold pyInt
  split_ifs
  · exact Int.floor_intCast n
  · exact Int.ceil_intCast n

theorem interp_pair_mono (p q : PoseFrame) (hts : p.timestamp ≤ q.timestamp)
    (hfi : p.frame_idx ≤ q.frame_idx) {a b : ℚ} (hab : a ≤ b) :
    frame_le (interpolate_single_pose p q a) (interpolate_single_pose p q b) := by
  constructor
  · show p.timestamp + a * (q.timestamp - p.timestamp) ≤
      p.timestamp + b * (q.timestamp - p.timestamp)
    nlinarith
  · apply pyInt_mono
    have hfi' : (p.frame_idx : ℚ) ≤ (q.frame_idx : ℚ) := by exact_mod_cast hfi
    nlinarith

theorem interp_zero_timestamp (p q : PoseFrame) :
    (interpolate_single_pose p q 0).timestamp = p.timestamp := by
  show p.timestamp + 0 * (q.timestamp - p.timestamp) = p.timestamp
  ring

theorem interp_zero_frame_idx (p q : PoseFrame) :
    (interpolate_single_pose p q 0).frame_idx = p.frame_idx := by
  show pyInt ((p.frame_idx : ℚ) + 0 * ((q.frame_idx : ℚ) - (p.frame_idx : ℚ))) = p.frame_idx
  rw [show (p.frame_idx : ℚ) + 0 * ((q.frame_idx : ℚ) - (p.frame_idx : ℚ)) =
    ((p.frame_idx : ℚ)) from by ring]
  exact pyInt_intCast p.frame_idx

theorem interp_one_timestamp (p q : PoseFrame) :
    (interpolate_single_pose p q 1).timestamp = q.timestamp := by
  show p.timestamp + 1 * (q.timestamp - p.timestamp) = q.timestamp
  ring

theorem interp_one_frame_idx (p q : PoseFrame) :
    (interpolate_single_pose p q 1).frame_idx = q.frame_idx := by
  show pyInt ((p.frame_idx : ℚ) + 1 * ((q.frame_idx : ℚ) - (p.frame_idx : ℚ))) = q.frame_idx
  rw [show (p.frame_idx : ℚ) + 1 * ((q.frame_idx : ℚ) - (p.frame_idx : ℚ)) =
    ((q.frame_idx : ℚ)) from by ring]
  exact pyInt_intCast q.frame_idx

theorem frame_le_interp_left (p q : PoseFrame) (hpq : frame_le p q)
    {a : ℚ} (h0 : 0 ≤ a) : frame_le p (interpolate_single_pose p q a) := by
  have h := interp_pair_mono p q hpq.1 hpq.2 h0
  rw [frame_le, interp_zero_timestamp, interp_zero_frame_idx] at h
  exact h

theorem frame_le_interp_right (p q : PoseFrame) (hpq : frame_le p q)
    {a : ℚ} (h1 : a ≤ 1) : frame_le (interpolate_single_pose p q a) q := by
  have h := interp_pair_mono p q hpq.1 hpq.2 h1
  rw [frame_le] at h
  rw [interp_one_timestamp, interp_one_frame_idx] at h
  exact h

theorem chain'_block (F : ℕ) (p q : PoseFrame) (hpq : frame_le p q) :
    List.Chain' frame_le (p :: (List.range (F - 1)).map
      (fun j : ℕ => interpolate_single_pose p q (((j : ℚ) + 1) / (F : ℚ)))) := by
  rw [List.chain'_cons']
  constructor
  · intro y hy
    cases hF : F - 1 with
    | zero => rw [hF] at hy; simp at hy
    | succ m =>
      rw [hF, List.range_succ_eq_map, List.map_cons, List.head?_cons,
        Option.mem_def, Option.some.injEq] at hy
      subst hy
      exact frame_le_interp_left p q hpq (by positivity)
  · rw [List.chain'_map]
    cases hF : F - 1 with
    | zero => simp
    | succ m =>
      rw [List.chain'_range_succ]
      intro k hk
      have hF2 : 2 ≤ F := by omega
      have hFpos : (0 : ℚ) < (F : ℚ) := by
        have : 0 < F := by omega
        exact_mod_cast this
      apply interp_pair_mono p q hpq.1 hpq.2
      rw [div_le_div_iff_of_pos_right hFpos]
      push_cast
      linarith

end FlowState

namespace FlowState

theorem block_getLast_le (F : ℕ) (p q : PoseFrame) (hpq : frame_le p q) :
    ∀ x, (p :: (List.range (F - 1)).map
      (fun j : ℕ => interpolate_single_pose p q (((j : ℚ) + 1) / (F : ℚ)))).getLast? = some x →
      frame_le x q := by
  intro x hx
  cases hF : F - 1 with
  | zero =>
    rw [hF] at hx
    simp only [List.range_zero, List.map_nil, List.getLast?_singleton,
      Option.some.injEq] at hx
    subst hx
    exact hpq
  | succ m =>
    rw [hF, List.range_succ, List.map_append, List.map_cons, List.map_nil,
      ← List.cons_append, List.getLast?_concat, Option.some.injEq] at hx
    subst hx
    have hF2 : 2 ≤ F := by omega
    have hFpos : (0 : ℚ) < (F : ℚ) := by
      have : 0 < F := by omega
      exact_mod_cast this
    apply frame_le_interp_right p q hpq
    rw [div_le_one hFpos]
    have hmF : m + 1 ≤ F := by omega
    exact_mod_cast hmF

theorem chain'_interpolate_go (F : ℕ) :
    ∀ poses : List PoseFrame, List.Chain' frame_le poses →
      List.Chain' frame_le (interpolate_go F poses)
  | [], _ => by simp [interpolate_go]
  | [p], _ => by simp [interpolate_go]
  | p :: q :: rest, h => by
    obtain ⟨hpq, htail⟩ := List.chain'_cons.mp h
    have ih := chain'_interpolate_go F (q :: rest) htail
    rw [interpolate_go, List.chain'_append]
    refine ⟨chain'_block F p q hpq, ih, ?_⟩
    intro x hx y hy
    rw [interpolate_go_head F q rest, Option.mem_def, Option.some.injEq] at hy
    subst hy
    exact block_getLast_le F p q hpq x (Option.mem_def.mp hx)

/-- C10 as amended: interpolation preserves non-decreasing timestamps
and frame indices, and for a consecutive pair with nonnegative frame
indices `i` and `i+1` every inserted frame (`α = j/F`, `1 ≤ j < F`)
receives frame index exactly `i`, because the interpolated index is
truncated toward zero. -/
theorem c10_order_preservation (F : ℕ) (poses : List PoseFrame) :
    (List.Chain' frame_le poses → List.Chain' frame_le (interpolate_poses F poses)) ∧
    (∀ p q : PoseFrame, ∀ j : ℕ, 0 ≤ p.frame_idx → q.frame_idx = p.frame_idx + 1 →
      1 ≤ j → j < F →
      (interpolate_single_pose p q ((j : ℚ) / (F : ℚ))).frame_idx = p.frame_idx) := by
  constructor
  · intro h
    rw [interpolate_poses]
    split_ifs
    · exact h
    · exact chain'_interpolate_go F poses h
  · intro p q j hp hq hj hjF
    show pyInt ((p.frame_idx : ℚ) +
      ((j : ℚ) / (F : ℚ)) * ((q.frame_idx : ℚ) - (p.frame_idx : ℚ))) = p.frame_idx
    have hF0 : (0 : ℚ) < (F : ℚ) := by
      have : 0 < F := by omega
      exact_mod_cast this
    have hfrac0 : 0 ≤ (j : ℚ) / (F : ℚ) := by positivity
    have hfrac1 : (j : ℚ) / (F : ℚ) < 1 := by
      rw [div_lt_one hF0]
      exact_mod_cast hjF
    have harg : (p.frame_idx : ℚ) +
        ((j : ℚ) / (F : ℚ)) * ((q.frame_idx : ℚ) - (p.frame_idx : ℚ)) =
        (p.frame_idx : ℚ) + (j : ℚ) / (F : ℚ) := by
      rw [hq]
      push_cast
      ring
    rw [harg, pyInt, if_pos (by
      have : (0 : ℚ) ≤ (p.frame_idx : ℚ) := by exact_mod_cast hp
      linarith)]
    rw [Int.floor_int_add, Int.floor_eq_zero_iff.mpr ⟨hfrac0, hfrac1⟩, add_zero]

/-- Witness for C10 at `[frameA, frameB]` with `F = 2`, `j = 1`. -/
theorem c10_order_preservation_witness :
    List.Chain' frame_le [frameA, frameB] ∧
      List.Chain' frame_le (interpolate_poses 2 [frameA, frameB]) ∧
      (interpolate_single_pose frameA frameB ((1 : ℚ) / (2 : ℚ))).frame_idx =
        frameA.frame_idx := by
  have hch : List.Chain' frame_le [frameA, frameB] :=
    List.chain'_pair.mpr ⟨by norm_num [frameA, frameB], by decide⟩
  exact ⟨hch, (c10_order_preservation 2 [frameA, frameB]).1 hch,
    (c10_order_preservation 2 [frameA, frameB]).2 frameA frameB 1
      (by decide) (by decide) (by decide) (by decide)⟩

/-- C10 counterexample: with frame indices `-1` and `0` and `F = 2`, the
single inserted frame receives frame index 0, not `-1`: `int()`
truncation goes toward zero, not down. -/
theorem c10_counterexample :
    frameNeg.frame_idx = -1 ∧ frameB0.frame_idx = frameNeg.frame_idx + 1 ∧
      (interpolate_single_pose frameNeg frameB0 ((1 : ℚ) / (2 : ℚ))).frame_idx = 0 ∧
      (interpolate_single_pose frameNeg frameB0 ((1 : ℚ) / (2 : ℚ))).frame_idx ≠
        frameNeg.frame_idx := by
  have hval : (interpolate_single_pose frameNeg frameB0 ((1 : ℚ) / (2 : ℚ))).frame_idx = 0 := by
    show pyInt ((frameNeg.frame_idx : ℚ) +
      ((1 : ℚ) / (2 : ℚ)) * ((frameB0.frame_idx : ℚ) - (frameNeg.frame_idx : ℚ))) = 0
    have harg : (frameNeg.frame_idx : ℚ) +
        ((1 : ℚ) / (2 : ℚ)) * ((frameB0.frame_idx : ℚ) - (frameNeg.frame_idx : ℚ)) =
        -1 / 2 := by
      norm_num [frameNeg, frameB0]
    rw [harg, pyInt, if_neg (by norm_num)]
    rw [Int.ceil_eq_zero_iff]
    constructor <;> norm_num
  refine ⟨rfl, by decide, hval, ?_⟩
  rw [hval]
  decide

end FlowState
